import Mathlib

/-!
Verification of the highlight-synchronization core of the obsidian-instapaper
plugin (`src/notes.ts`, `src/frontmatter.ts`), shallowly embedded in Lean.

Strings are modeled as Lean `String` (lists of Unicode scalar values), and the
JavaScript string operations the source uses (`trimEnd`, `trim`, `includes`
via Obsidian's `contains`, `replace` with a string pattern, `replace(/^/gm)`,
`replace(/\s+/g)`, number-to-decimal-string interpolation) are given explicit
executable definitions.  The Mustache template renderer is an external library
and is abstracted as an arbitrary function `render : String → Highlight →
String` (the view passed to `Mustache.render` is computed from the highlight,
so any renderer behavior is an instance of this abstraction).

Asynchronous effects are modeled by explicit state passing: the vault is an
association list from normalized paths to file bodies, the remote API is a
trace of fetch outcomes (one entry per `getHighlights` call), and the
fallibility of the external vault/frontmatter operations is injected through
per-highlight failure flags.  A `thrown` run result models an exception
propagating out of `syncNotes`.
-/

/-! ## Character classes (JavaScript semantics) -/

/-- JavaScript whitespace (the class `\s`, also used by `trim`/`trimEnd`):
WhiteSpace ∪ LineTerminator, i.e. TAB LF VT FF CR SP NBSP OGHAM-SP,
U+2000–U+200A, LS, PS, NNBSP, MMSP, IDSP, and the BOM. -/
def isWS (c : Char) : Bool :=
  decide (c.toNat = 9 ∨ c.toNat = 10 ∨ c.toNat = 11 ∨ c.toNat = 12 ∨
    c.toNat = 13 ∨ c.toNat = 32 ∨ c.toNat = 160 ∨ c.toNat = 5760 ∨
    (8192 ≤ c.toNat ∧ c.toNat ≤ 8202) ∨ c.toNat = 8232 ∨ c.toNat = 8233 ∨
    c.toNat = 8239 ∨ c.toNat = 8287 ∨ c.toNat = 12288 ∨ c.toNat = 65279)

/-- ASCII decimal digit (the class `\d`). -/
def isDigitC (c : Char) : Bool :=
  decide (48 ≤ c.toNat ∧ c.toNat ≤ 57)

/-- JavaScript line terminators (where the multiline anchor `^` matches after). -/
def isLineTerm (c : Char) : Bool :=
  decide (c.toNat = 10 ∨ c.toNat = 13 ∨ c.toNat = 8232 ∨ c.toNat = 8233)

/-- The path-hostile characters stripped by `fileForArticle`:
the regex class `[\\/:<>?|*"]`. -/
def isHostile (c : Char) : Bool :=
  c = '\\' || c = '/' || c = ':' || c = '<' || c = '>' ||
  c = '?' || c = '|' || c = '*' || c = '"'

/-! ## JavaScript string operations -/

/-- `trimEnd` on the character list: drop the maximal whitespace suffix. -/
def trimEndL (l : List Char) : List Char :=
  (l.reverse.dropWhile isWS).reverse

/-- JavaScript `String.prototype.trimEnd`. -/
def trimEndS (s : String) : String :=
  ⟨trimEndL s.data⟩

/-- `trim` on the character list: drop whitespace at both ends. -/
def trimL (l : List Char) : List Char :=
  trimEndL (l.dropWhile isWS)

/-- JavaScript `String.prototype.trim`. -/
def trimS (s : String) : String :=
  ⟨trimL s.data⟩

/-- Obsidian's `String.prototype.contains` (alias of `includes`):
substring test. -/
def containsB (s sub : String) : Bool :=
  decide (sub.data <:+: s.data)

/-- Split `l` at the first occurrence of `old`: returns the part before and
the part after the occurrence, or `none` when `old` does not occur. -/
def splitFirst (old : List Char) : List Char → Option (List Char × List Char)
  | [] => if old.isEmpty then some ([], []) else none
  | c :: t =>
    if old.isPrefixOf (c :: t) then some ([], (c :: t).drop old.length)
    else (splitFirst old t).map (fun p => (c :: p.1, p.2))

/-- ECMAScript `GetSubstitution` for a string search value (no capture
groups, no named captures): scanning the replacement left to right, `$$`
yields `$`, `$&` yields the matched text, `` $` `` (dollar, U+0060) yields
the part of the subject before the match, `$'` (dollar, U+0027) yields the
part after it, and any other `$` (including `$1`…`$9` with no captures,
`$<`, and a trailing `$`) is literal.  Inserted text is not rescanned. -/
def getSubst (matched before after : List Char) : List Char → List Char
  | [] => []
  | [c] => [c]
  | c :: d :: t =>
    if c = '$' then
      if d = '$' then '$' :: getSubst matched before after t
      else if d = '&' then matched ++ getSubst matched before after t
      else if d.toNat = 96 then before ++ getSubst matched before after t
      else if d.toNat = 39 then after ++ getSubst matched before after t
      else c :: getSubst matched before after (d :: t)
    else c :: getSubst matched before after (d :: t)

/-- JavaScript `String.prototype.replace` with a string pattern: replace
the first occurrence of `old` with `new` subjected to `GetSubstitution`
(`$`-pattern expansion), or return the string unchanged when `old` does
not occur. -/
def replaceFirst (old new s : String) : String :=
  match splitFirst old.data s.data with
  | none => s
  | some (a, b) => ⟨a ++ getSubst old.data a b new.data ++ b⟩

/-- Body of `replace(/^/gm, '> ')`: insert `"> "` after every line
terminator. -/
def quoteBody : List Char → List Char
  | [] => []
  | c :: t =>
    if isLineTerm c then c :: '>' :: ' ' :: quoteBody t
    else c :: quoteBody t

/-- JavaScript `text.replace(/^/gm, '> ')`: `"> "` is inserted at the start
of the string and after every line terminator. -/
def quoteLines (s : String) : String :=
  ⟨'>' :: ' ' :: quoteBody s.data⟩

/-- `replace(/\s+/g, '-')` as a one-pass automaton: `inRun` records whether
the previous character was whitespace (in which case the run's single `'-'`
has already been emitted). -/
def replWS : Bool → List Char → List Char
  | _, [] => []
  | inRun, c :: t =>
    if isWS c then
      if inRun then replWS true t else '-' :: replWS true t
    else c :: replWS false t

/-- JavaScript `s.replace(/\s+/g, '-')`: each maximal whitespace run becomes
a single hyphen. -/
def replaceWSRuns (s : String) : String :=
  ⟨replWS false s.data⟩

/-- The regex test `/^\d+$/`: non-empty and entirely ASCII digits. -/
def isNumericS (s : String) : Bool :=
  !s.data.isEmpty && s.data.all isDigitC

/-- Decimal digit character for `d ≤ 9` (`digitChar 10` is unreachable in
`natDigitsAux`). -/
def digitChar : Nat → Char
  | 0 => '0' | 1 => '1' | 2 => '2' | 3 => '3' | 4 => '4'
  | 5 => '5' | 6 => '6' | 7 => '7' | 8 => '8' | _ => '9'

/-- Decimal digits of `n`, most significant first, with enough fuel. -/
def natDigitsAux : Nat → Nat → List Char
  | 0, _ => []
  | fuel + 1, n =>
    if n < 10 then [digitChar n]
    else natDigitsAux fuel (n / 10) ++ [digitChar (n % 10)]

/-- JavaScript number-to-string for a nonnegative integer, as used by
template-literal interpolation `${id}`. -/
def natStr (n : Nat) : String :=
  ⟨natDigitsAux (n + 1) n⟩

/-! ## Data model (from `src/api.ts`)

Only the fields the synchronization core reads are modeled.  A highlight's
`note` is `string | null` in the source; `null` and `""` are both falsy and
the note's characters are only used when it is truthy, so `null` is modeled
as `""`. -/

/-- `InstapaperTag` (field `name`; the other fields are never read by the
synchronization core). -/
structure InstapaperTag where
  name : String
deriving DecidableEq, Repr

/-- `InstapaperHighlight`.  `article_id` is a string in the source. -/
structure InstapaperHighlight where
  highlight_id : Nat
  article_id : String
  text : String
  note : String
deriving DecidableEq, Repr

/-- `InstapaperBookmark` (the fields read by `fileForArticle`; the fields
consumed only by the frontmatter collaborator are not modeled because that
collaborator is abstracted, see `processHighlight`). -/
structure InstapaperBookmark where
  bookmark_id : Nat
  title : String
deriving DecidableEq, Repr

/-! ## Renderers and anchors (from `src/notes.ts`, current version) -/

/-- `linkForHighlight` (src/notes.ts line 428). -/
def linkForHighlight (highlight : InstapaperHighlight) : String :=
  "https://www.instapaper.com/read/" ++ highlight.article_id ++ "/" ++
    natStr highlight.highlight_id

/-- `blockIdentifierForHighlight` (src/notes.ts line 433). -/
def blockIdentifierForHighlight (highlight : InstapaperHighlight) : String :=
  "^h" ++ natStr highlight.highlight_id

/-- `hasHighlightMarker` (src/notes.ts line 437). -/
def hasHighlightMarker (content : String) (highlight : InstapaperHighlight) : Bool :=
  containsB content (blockIdentifierForHighlight highlight) ||
  containsB content (linkForHighlight highlight)

/-- `legacyContentForHighlight` (src/notes.ts line 443).  The link glyph in
the source is the byte sequence `"â†—"` (U+00E2 U+2020 U+2014, a
double-encoded `"↗"`), reproduced here exactly. -/
def legacyContentForHighlight (highlight : InstapaperHighlight) : String :=
  let content := quoteLines highlight.text
  let content := content ++ " [â†—](" ++ linkForHighlight highlight ++ ")"
  let content := content ++ "\n\n"
  let content := if highlight.note ≠ "" then content ++ highlight.note ++ "\n\n" else content
  trimEndS content ++ "\n\n"

/-- The first pre-template `contentForHighlight` (src/notes.ts lines
117–126), whose `linkSymbol` is the same `"â†—"` byte sequence the legacy
renderer uses. -/
def contentForHighlightV1 (highlight : InstapaperHighlight) : String :=
  let content := quoteLines highlight.text
  let content := content ++ " [â†—](" ++ linkForHighlight highlight ++ ")"
  let content := content ++ "\n\n"
  if highlight.note ≠ "" then content ++ highlight.note ++ "\n\n" else content

/-- The second pre-template `contentForHighlight` (src/notes.ts lines
235–244), whose `linkSymbol` is the properly encoded `"↗"` (U+2197). -/
def contentForHighlightV2 (highlight : InstapaperHighlight) : String :=
  let content := quoteLines highlight.text
  let content := content ++ " [↗](" ++ linkForHighlight highlight ++ ")"
  let content := content ++ "\n\n"
  if highlight.note ≠ "" then content ++ highlight.note ++ "\n\n" else content

/-- `contentForHighlight` (src/notes.ts lines 453–476), parametric in the
Mustache renderer.  `render` receives the template and the highlight (the
view `{text, note, link, blockId}` is a function of the highlight). -/
def contentForHighlight (render : String → InstapaperHighlight → String)
    (highlight : InstapaperHighlight) (template : String) : String :=
  let link := linkForHighlight highlight
  let blockId := blockIdentifierForHighlight highlight
  let content := render template highlight
  let content :=
    if !containsB content link && !containsB content blockId then
      trimEndS content ++ " " ++ blockId
    else content
  trimEndS content ++ "\n\n"

/-! ## Tag normalization (from `src/frontmatter.ts`) -/

/-- `normalizeTag` (src/frontmatter.ts lines 122–132): trim, replace each
whitespace run with a hyphen, and append an underscore when the result is
entirely numeric. -/
def normalizeTag (tag : InstapaperTag) : String :=
  let name := replaceWSRuns (trimS tag.name)
  if isNumericS name then name ++ "_" else name

/-! ## File resolution (from `src/notes.ts` lines 410–426) -/

/-- The filename computation of `fileForArticle` (src/notes.ts lines
417–420): strip the path-hostile characters, truncate to 250 characters,
trim, and fall back to `Untitled-{bookmark_id}` when the result is empty. -/
def sanitizedName (article : InstapaperBookmark) : String :=
  let name := trimS ⟨((article.title.data.filter (fun c => !isHostile c)).take 250)⟩
  if name = "" then "Untitled-" ++ natStr article.bookmark_id else name

/-! ## Vault model

The vault is an association list from normalized paths to file bodies.
Obsidian's `normalizePath` is host code and is modeled as the identity; the
frontmatter collaborator (`applyArticleFrontmatter`) rewrites only the
frontmatter block of a file, so the bodies stored here are the texts that
`vault.read` exposes to the highlight logic. -/

/-- File bodies by path. -/
def VaultFS := List (String × String)

instance : DecidableEq VaultFS := by
  unfold VaultFS
  infer_instance

/-- Association-list lookup by string key (also used for the `bookmarks`
record of a page). -/
def alookup {α : Type} : List (String × α) → String → Option α
  | [], _ => none
  | (p, c) :: t, q => if p = q then some c else alookup t q

/-- `vault.getFileByPath` / `vault.read`: look up a file's body. -/
def vget (v : VaultFS) (q : String) : Option String :=
  alookup v q

/-- `vault.create` / `vault.modify` / `vault.append`: write a file's body
(update in place, or add the file when absent). -/
def vset : VaultFS → String → String → VaultFS
  | [], q, c => [(q, c)]
  | (p, c0) :: t, q, c => if p = q then (q, c) :: t else (p, c0) :: vset t q c

/-! ## Failure injection

The external vault and frontmatter operations are asynchronous host calls
that can reject.  Each processed highlight consumes one `ItemFx` record
(default: all operations succeed) that says which of its external calls
fail.  `createThrows` corresponds to the `try`-wrapped `fileForArticle`
call; the remaining flags correspond to calls the source does not wrap. -/

/-- Per-highlight failure flags for the external calls. -/
structure ItemFx where
  createThrows : Bool
  fmThrows : Bool
  migrateReadThrows : Bool
  modifyThrows : Bool
  appendReadThrows : Bool
  appendThrows : Bool
deriving DecidableEq, Repr

/-- All external calls succeed. -/
def itemFxNone : ItemFx :=
  ⟨false, false, false, false, false, false⟩

/-! ## Options (from `SyncNotesOptions`, src/notes.ts lines 260–297) -/

/-- `updateHighlightTemplate`: replace highlights rendered with `fromTpl`
(or, when `fromTpl` is `none`, with the legacy fixed format) using `toTpl`.
The source field names are `from` and `to`. -/
structure FromTo where
  fromTpl : Option String
  toTpl : String
deriving DecidableEq, Repr

/-- `SyncNotesOptions` with the defaults of src/notes.ts lines 308–315
already merged in. -/
structure SyncNotesOptions where
  createFiles : Bool
  syncProperties : Bool
  removeDisabledProperties : Bool
  syncHighlights : Bool
  updateHighlightTemplate : Option FromTo
  maxErrors : Nat
deriving DecidableEq, Repr

/-- The merged defaults (`createFiles`, `syncProperties`, `syncHighlights`
true; `removeDisabledProperties` false; no template update; `maxErrors` 3). -/
def defaultOptions : SyncNotesOptions :=
  ⟨true, true, false, true, none, 3⟩

/-! ## The sync engine (from `syncNotes`, src/notes.ts lines 299–408) -/

/-- `fileForArticle` (src/notes.ts lines 410–426).  Returns the resolved
path together with the possibly extended vault, `none` when the file does
not exist and creation is disabled, or an error when `vault.create`
rejects. -/
def fileForArticle (article : InstapaperBookmark) (vault : VaultFS)
    (folder : String) (create : Bool) (createThrows : Bool) :
    Except Unit (Option (String × VaultFS)) :=
  let path := folder ++ "/" ++ sanitizedName article ++ ".md"
  match vget vault path with
  | some _ => .ok (some (path, vault))
  | none =>
    if create then
      if createThrows then .error ()
      else .ok (some (path, vset vault path ""))
    else .ok none

/-- The old rendering used by the template-migration step
(src/notes.ts lines 384–387): the recorded previous template, or the legacy
fixed format, right-trimmed. -/
def oldFormatFor (render : String → InstapaperHighlight → String)
    (ft : FromTo) (highlight : InstapaperHighlight) : String :=
  trimEndS (match ft.fromTpl with
    | none => legacyContentForHighlight highlight
    | some f => contentForHighlight render highlight f)

/-- The new rendering used by the template-migration step
(src/notes.ts line 388): the `to` template's rendering, right-trimmed. -/
def newFormatFor (render : String → InstapaperHighlight → String)
    (ft : FromTo) (highlight : InstapaperHighlight) : String :=
  trimEndS (contentForHighlight render highlight ft.toTpl)

/-- The pure content transformation of the template-migration step
(src/notes.ts lines 389–392): when the file's text contains the old
rendering, replace its first occurrence with the new rendering; otherwise
leave the text unchanged. -/
def migrateStep (render : String → InstapaperHighlight → String)
    (ft : FromTo) (highlight : InstapaperHighlight) (fileContent : String) : String :=
  if containsB fileContent (oldFormatFor render ft highlight) then
    replaceFirst (oldFormatFor render ft highlight) (newFormatFor render ft highlight) fileContent
  else fileContent

/-- Loop state of `syncNotes`: the cursor and count to be returned, the
consecutive-error counter, the vault, and the remaining failure-injection
trace. -/
structure SyncState where
  cursor : Nat
  count : Nat
  errors : Nat
  vault : VaultFS
  fx : List ItemFx
deriving DecidableEq

/-- The template-migration step of the loop body (src/notes.ts lines
381–393): read the file, and when it contains the old rendering, modify it
with the first occurrence replaced.  The read and the modify are uncaught
external calls. -/
def migratePhase (render : String → InstapaperHighlight → String)
    (opts : SyncNotesOptions) (highlight : InstapaperHighlight)
    (fxh : ItemFx) (path : String) (st : SyncState) : Except Unit SyncState :=
  match opts.updateHighlightTemplate with
  | none => .ok st
  | some ft =>
    if fxh.migrateReadThrows then .error () else
    let fileContent := (vget st.vault path).getD ""
    if containsB fileContent (oldFormatFor render ft highlight) then
      if fxh.modifyThrows then .error ()
      else .ok { st with vault := vset st.vault path (migrateStep render ft highlight fileContent) }
    else .ok st

/-- The append step of the loop body (src/notes.ts lines 395–403): read the
file and, when the highlight's anchor is absent, append its rendering and
count it.  The read and the append are uncaught external calls. -/
def appendPhase (render : String → InstapaperHighlight → String)
    (opts : SyncNotesOptions) (template : String)
    (highlight : InstapaperHighlight) (fxh : ItemFx) (path : String)
    (st : SyncState) : Except Unit SyncState :=
  if opts.syncHighlights then
    if fxh.appendReadThrows then .error () else
    let fileContent := (vget st.vault path).getD ""
    if hasHighlightMarker fileContent highlight then .ok st
    else if fxh.appendThrows then .error ()
    else .ok { st with
      vault := vset st.vault path (fileContent ++ contentForHighlight render highlight template),
      count := st.count + 1 }
  else .ok st

/-- The per-highlight steps after file resolution (src/notes.ts lines
370–403): frontmatter refresh (external, may reject), template migration,
and conditional append.  Only `vault` and `count` change; an `.error`
models an uncaught exception. -/
def processFileSteps (render : String → InstapaperHighlight → String)
    (opts : SyncNotesOptions) (template : String)
    (highlight : InstapaperHighlight) (fxh : ItemFx) (path : String)
    (st : SyncState) : Except Unit SyncState :=
  -- applyArticleFrontmatter: abstracted; edits only the frontmatter block.
  if opts.syncProperties && fxh.fmThrows then .error () else
  match migratePhase render opts highlight fxh path st with
  | .error e => .error e
  | .ok st1 => appendPhase render opts template highlight fxh path st1

/-- One iteration of the `for (const highlight of highlights)` body
(src/notes.ts lines 352–404).  The cursor advances to the highlight's id
first; an orphan highlight, a missing file with creation disabled, and a
rejecting `fileForArticle` are all skipped (`continue`). -/
def processHighlight (render : String → InstapaperHighlight → String)
    (opts : SyncNotesOptions) (folder template : String)
    (bms : List (String × InstapaperBookmark)) (st0 : SyncState)
    (highlight : InstapaperHighlight) : Except Unit SyncState :=
  let fxh := st0.fx.headD itemFxNone
  let st : SyncState := { st0 with cursor := highlight.highlight_id, fx := st0.fx.tail }
  match alookup bms highlight.article_id with
  | none => .ok st
  | some article =>
    match fileForArticle article st.vault folder opts.createFiles fxh.createThrows with
    | .error _ => .ok st
    | .ok none => .ok st
    | .ok (some (path, vault1)) =>
      processFileSteps render opts template highlight fxh path { st with vault := vault1 }

/-- The `for` loop over one page of highlights. -/
def runHighlights (render : String → InstapaperHighlight → String)
    (opts : SyncNotesOptions) (folder template : String)
    (bms : List (String × InstapaperBookmark)) :
    SyncState → List InstapaperHighlight → Except Unit SyncState
  | st, [] => .ok st
  | st, h :: t =>
    match processHighlight render opts folder template bms st h with
    | .error e => .error e
    | .ok st' => runHighlights render opts folder template bms st' t

/-- One page of `getHighlights` output. -/
structure Page where
  highlights : List InstapaperHighlight
  bookmarks : List (String × InstapaperBookmark)
deriving DecidableEq

/-- Outcome of a run: normal return of `{cursor, count}` (with the final
vault), an exception escaping `syncNotes`, or an exhausted fetch trace
(the model ran out of oracle input before the loop terminated). -/
inductive RunResult
  | ok (cursor count : Nat) (vault : VaultFS)
  | thrown
  | outOfResponses
deriving DecidableEq

/-- The `while (true)` page loop (src/notes.ts lines 331–405), driven by
the trace of fetch outcomes.  A fetch failure bumps the consecutive-error
counter and either stops at the threshold or retries with the same state;
a fetch success resets the counter, stops on an empty page, and otherwise
processes the page. -/
def syncLoop (render : String → InstapaperHighlight → String)
    (opts : SyncNotesOptions) (folder template : String) :
    List (Except Unit Page) → SyncState → RunResult
  | [], _ => .outOfResponses
  | r :: rest, st =>
    match r with
    | .error _ =>
      if st.errors + 1 ≥ opts.maxErrors then .ok st.cursor st.count st.vault
      else syncLoop render opts folder template rest { st with errors := st.errors + 1 }
    | .ok page =>
      let st := { st with errors := 0 }
      if page.highlights.isEmpty then .ok st.cursor st.count st.vault
      else
        match runHighlights render opts folder template page.bookmarks st page.highlights with
        | .error _ => .thrown
        | .ok st' => syncLoop render opts folder template rest st'

/-- The environment of a run: whether the notes folder exists at start, the
fetch-outcome trace, the initial vault, and the failure-injection trace. -/
structure SyncEnv where
  folderExists : Bool
  responses : List (Except Unit Page)
  vault : VaultFS
  fx : List ItemFx

/-- `syncNotes` (src/notes.ts lines 299–408).  When the notes folder is
missing: return `{cursor, count: 0}` unchanged if `createFiles` is false,
otherwise create the folder and force the cursor to 0 before the loop. -/
def syncNotes (render : String → InstapaperHighlight → String)
    (opts : SyncNotesOptions) (folder template : String) (env : SyncEnv)
    (cursor : Nat) : RunResult :=
  if env.folderExists then
    syncLoop render opts folder template env.responses ⟨cursor, 0, 0, env.vault, env.fx⟩
  else if !opts.createFiles then .ok cursor 0 env.vault
  else syncLoop render opts folder template env.responses ⟨0, 0, 0, env.vault, env.fx⟩

/-- The cursor of a normally returned result. -/
def cursorOf : RunResult → Option Nat
  | .ok cursor _ _ => some cursor
  | _ => none

/-- An `ItemFx` whose uncaught external calls all succeed (`createThrows`
may still be true: the `fileForArticle` call is `try`-wrapped). -/
def benignFx (f : ItemFx) : Bool :=
  !f.fmThrows && !f.migrateReadThrows && !f.modifyThrows &&
    !f.appendReadThrows && !f.appendThrows

/-! ## Definitions taken from the specification text

These model what the specification literally states, for comparison with
the definitions taken from the source. -/

/-- A concrete Mustache-renderer instance (renders every template to
itself), used to instantiate the renderer-parametric theorems on concrete
inputs. -/
def renderConst : String → InstapaperHighlight → String :=
  fun template _ => template

/-- The tag-normalization rule exactly as the specification states it:
replace each whitespace run with a single hyphen (with no mention of
trimming), then append an underscore when the result is entirely
numeric. -/
def normalizeTagSpec (name : String) : String :=
  let n := replaceWSRuns name
  if isNumericS n then n ++ "_" else n

/-- The filename rule exactly as the specification states it: strip the
path-hostile characters, trim, and then truncate to 250 characters (the
source instead truncates before trimming). -/
def sanitizedNameSpec (article : InstapaperBookmark) : String :=
  let name : String := ⟨(trimL (article.title.data.filter (fun c => !isHostile c))).take 250⟩
  if name = "" then "Untitled-" ++ natStr article.bookmark_id else name

deriving instance DecidableEq for Except

/-! ## Helper lemmas: characters and decimal strings -/

theorem isWS_eq_false_of_isDigitC {c : Char} (h : isDigitC c = true) :
    isWS c = false := by
  simp only [isDigitC, decide_eq_true_eq] at h
  simp only [isWS, decide_eq_false_iff_not]
  omega

theorem isDigitC_digitChar (d : Nat) : isDigitC (digitChar d) = true := by
  unfold digitChar
  split <;> decide

theorem natDigitsAux_spec :
    ∀ fuel n, n < fuel →
      natDigitsAux fuel n ≠ [] ∧ ∀ c ∈ natDigitsAux fuel n, isDigitC c = true := by
  intro fuel
  induction fuel with
  | zero => intro n h; omega
  | succ f ih =>
    intro n h
    unfold natDigitsAux
    by_cases h10 : n < 10
    · simp only [if_pos h10]
      refine ⟨by simp, ?_⟩
      intro c hc
      simp only [List.mem_singleton] at hc
      subst hc
      exact isDigitC_digitChar n
    · simp only [if_neg h10]
      have hdiv : n / 10 < f := by
        have := Nat.div_lt_self (by omega : 0 < n) (by omega : 1 < 10)
        omega
      obtain ⟨hne, hall⟩ := ih (n / 10) hdiv
      refine ⟨by simp [hne], ?_⟩
      intro c hc
      rcases List.mem_append.1 hc with hl | hr
      · exact hall c hl
      · simp only [List.mem_singleton] at hr
        subst hr
        exact isDigitC_digitChar (n % 10)

theorem natStr_ne_nil (n : Nat) : (natStr n).data ≠ [] :=
  (natDigitsAux_spec (n + 1) n (Nat.lt_succ_self n)).1

theorem natStr_digits (n : Nat) : ∀ c ∈ (natStr n).data, isDigitC c = true :=
  (natDigitsAux_spec (n + 1) n (Nat.lt_succ_self n)).2

/-- Every decimal string ends in a digit character. -/
theorem natStr_concat (n : Nat) :
    ∃ m d, (natStr n).data = m ++ [d] ∧ isDigitC d = true := by
  rcases List.eq_nil_or_concat (natStr n).data with h | ⟨m, d, h⟩
  · exact absurd h (natStr_ne_nil n)
  · refine ⟨m, d, by simpa [List.concat_eq_append] using h, ?_⟩
    exact natStr_digits n d (by simp [h, List.concat_eq_append])

/-! ## Helper lemmas: `trimEnd` -/

/-- `trimEnd` keeps a string that ends in a non-whitespace character after an
all-whitespace run removed: `trimEnd (x ++ c :: w) = x ++ [c]` when `c` is
not whitespace and `w` is all whitespace. -/
theorem trimEndL_append_ws {x w : List Char} {c : Char}
    (hc : isWS c = false) (hw : ∀ a ∈ w, isWS a = true) :
    trimEndL (x ++ c :: w) = x ++ [c] := by
  unfold trimEndL
  rw [List.reverse_append, List.reverse_cons, List.append_assoc]
  rw [List.dropWhile_append_of_pos (by simpa using hw)]
  rw [List.singleton_append, List.dropWhile_cons_of_neg (by simp [hc])]
  simp

/-- `trimEnd` of a string that ends in a non-whitespace character is the
string itself. -/
theorem trimEndL_no_ws_end {x : List Char} {c : Char} (hc : isWS c = false) :
    trimEndL (x ++ [c]) = x ++ [c] := by
  simpa using trimEndL_append_ws (x := x) (w := []) hc (by simp)

/-- A substring that ends in a non-whitespace character survives `trimEnd`. -/
theorem infix_trimEndL {s0 l : List Char} {d : Char}
    (hd : isWS d = false) (h : s0 ++ [d] <:+: l) :
    s0 ++ [d] <:+: trimEndL l := by
  obtain ⟨a, b, hl⟩ := h
  subst hl
  unfold trimEndL
  have hrev : (a ++ (s0 ++ [d]) ++ b).reverse
      = b.reverse ++ (d :: (s0.reverse ++ a.reverse)) := by
    simp
  rw [hrev, List.dropWhile_append]
  by_cases hb : (b.reverse.dropWhile isWS).isEmpty
  · rw [if_pos hb, List.dropWhile_cons_of_neg (by simp [hd])]
    refine ⟨a, [], ?_⟩
    simp
  · rw [if_neg hb]
    refine ⟨a, (b.reverse.dropWhile isWS).reverse, ?_⟩
    simp

/-! ## Helper lemmas: anchors -/

theorem containsB_iff {s sub : String} :
    containsB s sub = true ↔ sub.data <:+: s.data := by
  simp [containsB]

/-- The block identifier ends in a decimal digit. -/
theorem blockId_concat (highlight : InstapaperHighlight) :
    ∃ m d, (blockIdentifierForHighlight highlight).data = m ++ [d] ∧ isWS d = false := by
  obtain ⟨m, d, hmd, hdig⟩ := natStr_concat highlight.highlight_id
  refine ⟨"^h".data ++ m, d, ?_, isWS_eq_false_of_isDigitC hdig⟩
  simp [blockIdentifierForHighlight, hmd]

/-- The permalink ends in a decimal digit. -/
theorem link_concat (highlight : InstapaperHighlight) :
    ∃ m d, (linkForHighlight highlight).data = m ++ [d] ∧ isWS d = false := by
  obtain ⟨m, d, hmd, hdig⟩ := natStr_concat highlight.highlight_id
  refine ⟨("https://www.instapaper.com/read/" ++ highlight.article_id ++ "/").data ++ m,
    d, ?_, isWS_eq_false_of_isDigitC hdig⟩
  simp [linkForHighlight, hmd]

/-- A substring that ends in a non-whitespace character survives `trimEnd`
followed by any suffix. -/
theorem infix_trimEndS_append {anchor : String} {content suffixS : String}
    (hconcat : ∃ m d, anchor.data = m ++ [d] ∧ isWS d = false)
    (h : anchor.data <:+: content.data) :
    anchor.data <:+: (trimEndS content ++ suffixS).data := by
  obtain ⟨m, d, hmd, hdw⟩ := hconcat
  rw [String.data_append]
  refine List.IsInfix.trans ?_ (List.prefix_append _ _).isInfix
  show anchor.data <:+: trimEndL content.data
  rw [hmd] at h ⊢
  exact infix_trimEndL hdw h

/-- Every rendered highlight block carries one of the two anchors,
whatever the Mustache renderer produced. -/
theorem anchor_in_content (render : String → InstapaperHighlight → String)
    (highlight : InstapaperHighlight) (template : String) :
    (linkForHighlight highlight).data <:+: (contentForHighlight render highlight template).data ∨
    (blockIdentifierForHighlight highlight).data <:+: (contentForHighlight render highlight template).data := by
  simp only [contentForHighlight]
  split
  · -- neither anchor appeared in the rendering: the block identifier is appended
    right
    refine infix_trimEndS_append (blockId_concat highlight) ?_
    rw [String.data_append]
    exact (List.suffix_append _ _).isInfix
  · -- the rendering already contains an anchor
    rename_i hb
    by_cases hA : containsB (render template highlight) (linkForHighlight highlight) = true
    · left
      exact infix_trimEndS_append (link_concat highlight) (containsB_iff.1 hA)
    · have hB : containsB (render template highlight) (blockIdentifierForHighlight highlight) = true := by
        cases hBB : containsB (render template highlight) (blockIdentifierForHighlight highlight)
        · exact absurd (by simp [Bool.eq_false_iff.2 (fun hx => hA hx), hBB]) hb
        · rfl
      right
      exact infix_trimEndS_append (blockId_concat highlight) (containsB_iff.1 hB)
/-! ## Helper lemmas: first-occurrence replacement -/

theorem splitFirst_eq_none {old l : List Char} :
    splitFirst old l = none ↔ ¬ old <:+: l := by
  induction l with
  | nil =>
    unfold splitFirst
    by_cases h : old.isEmpty
    · have : old = [] := by simpa [List.isEmpty_iff] using h
      subst this
      simp
    · have hne : old ≠ [] := by simpa [List.isEmpty_iff] using h
      rw [if_neg h]
      simp [List.infix_nil, hne]
  | cons c t ih =>
    unfold splitFirst
    by_cases hp : old.isPrefixOf (c :: t)
    · rw [if_pos hp]
      have hpre : old <+: c :: t := by simpa using hp
      simp only [List.infix_cons_iff]
      constructor
      · intro h
        exact absurd h (by simp)
      · intro h
        exact absurd (Or.inl hpre) h
    · rw [if_neg hp]
      have hnp : ¬ old <+: c :: t := by simpa using hp
      rw [Option.map_eq_none', ih, List.infix_cons_iff]
      constructor
      · intro h hor
        rcases hor with h1 | h2
        · exact hnp h1
        · exact h h2
      · intro h h2
        exact h (Or.inr h2)

theorem splitFirst_spec {old l a b : List Char}
    (h : splitFirst old l = some (a, b)) :
    l = a ++ old ++ b ∧
      ∀ a2 b2, l = a2 ++ old ++ b2 → a.length ≤ a2.length := by
  induction l generalizing a b with
  | nil =>
    unfold splitFirst at h
    by_cases he : old.isEmpty
    · rw [if_pos he] at h
      have hon : old = [] := by simpa [List.isEmpty_iff] using he
      injection h with h2
      injection h2 with ha hb
      subst ha
      subst hb
      subst hon
      exact ⟨rfl, fun _ _ _ => Nat.zero_le _⟩
    · rw [if_neg he] at h
      exact absurd h (by simp)
  | cons c t ih =>
    unfold splitFirst at h
    by_cases hp : old.isPrefixOf (c :: t)
    · rw [if_pos hp] at h
      have hpre : old <+: c :: t := by simpa using hp
      obtain ⟨rest, hrest⟩ := hpre
      injection h with h2
      injection h2 with ha hb
      subst ha
      subst hb
      refine ⟨?_, fun _ _ _ => Nat.zero_le _⟩
      rw [← hrest, List.drop_left]
      simp
    · rw [if_neg hp] at h
      have hnp : ¬ old <+: c :: t := by simpa using hp
      rcases Option.map_eq_some'.1 h with ⟨⟨a0, b0⟩, hsplit, heq⟩
      simp only at heq
      injection heq with ha hb
      subst ha
      subst hb
      obtain ⟨hdecomp, hmin⟩ := ih hsplit
      refine ⟨by simp [hdecomp], ?_⟩
      intro a2 b2 hglue
      cases a2 with
      | nil =>
        exact absurd ⟨b2, by simpa using hglue.symm⟩ hnp
      | cons c2 a3 =>
        have h4 : c :: t = c2 :: (a3 ++ old ++ b2) := by simpa using hglue
        injection h4 with _ h5
        have h6 := hmin a3 b2 h5
        simp only [List.length_cons]
        omega

/-- `GetSubstitution` is the identity on a replacement containing no `$`. -/
theorem getSubst_no_dollar {m b a : List Char} : ∀ {l : List Char},
    (∀ c ∈ l, c ≠ '$') → getSubst m b a l = l := by
  intro l
  induction l with
  | nil => intro _; rfl
  | cons c t ih =>
    intro h
    cases t with
    | nil => rfl
    | cons d t2 =>
      have h1 : c ≠ '$' := h c (by simp)
      have h2 := ih (fun x hx => h x (by simp [hx]))
      show getSubst m b a (c :: d :: t2) = c :: d :: t2
      unfold getSubst
      rw [if_neg h1, h2]

/-- The specification of `replaceFirst`: when `old` occurs in `s`, exactly
the first (leftmost) occurrence is replaced — by the `$`-substituted
replacement in general, and by `new` itself when `new` contains no `$` —
and the rest of the string is kept verbatim. -/
theorem replaceFirst_spec {old new s : String} (h : old.data <:+: s.data) :
    ∃ a b, s.data = a ++ old.data ++ b ∧
      (replaceFirst old new s).data = a ++ getSubst old.data a b new.data ++ b ∧
      ((∀ c ∈ new.data, c ≠ '$') →
        (replaceFirst old new s).data = a ++ new.data ++ b) ∧
      ∀ a2 b2, s.data = a2 ++ old.data ++ b2 → a.length ≤ a2.length := by
  rcases hs : splitFirst old.data s.data with _ | ⟨a, b⟩
  · exact absurd h (splitFirst_eq_none.1 hs)
  · obtain ⟨hdecomp, hmin⟩ := splitFirst_spec hs
    refine ⟨a, b, hdecomp, by simp [replaceFirst, hs], ?_, hmin⟩
    intro hnd
    simp [replaceFirst, hs, getSubst_no_dollar hnd]

/-- `replaceFirst` leaves the string unchanged when `old` does not occur. -/
theorem replaceFirst_no_occ {old new s : String} (h : ¬ old.data <:+: s.data) :
    replaceFirst old new s = s := by
  rw [replaceFirst, splitFirst_eq_none.2 h]

/-! ## Helper lemmas: tag normalization -/

theorem replWS_no_ws : ∀ (b : Bool) (l : List Char),
    ∀ c ∈ replWS b l, isWS c = false := by
  intro b l
  induction l generalizing b with
  | nil => intro c hc; simp [replWS] at hc
  | cons a t ih =>
    intro c hc
    unfold replWS at hc
    by_cases ha : isWS a = true
    · rw [if_pos ha] at hc
      by_cases hb : b = true
      · rw [if_pos hb] at hc
        exact ih true c hc
      · rw [if_neg hb] at hc
        rcases List.mem_cons.1 hc with h1 | h2
        · subst h1; decide
        · exact ih true c h2
    · rw [if_neg ha] at hc
      rcases List.mem_cons.1 hc with h1 | h2
      · subst h1; simpa using ha
      · exact ih false c h2

theorem replWS_id {l : List Char} (h : ∀ c ∈ l, isWS c = false) :
    ∀ b, replWS b l = l := by
  induction l with
  | nil => intro b; rfl
  | cons a t ih =>
    intro b
    unfold replWS
    rw [if_neg (by simp [h a (by simp)])]
    rw [ih (fun c hc => h c (by simp [hc])) false]

theorem dropWhile_no_ws {l : List Char} (h : ∀ c ∈ l, isWS c = false) :
    l.dropWhile isWS = l := by
  cases l with
  | nil => rfl
  | cons a t => exact List.dropWhile_cons_of_neg (by simp [h a (by simp)])

theorem trimEndL_no_ws {l : List Char} (h : ∀ c ∈ l, isWS c = false) :
    trimEndL l = l := by
  unfold trimEndL
  rw [dropWhile_no_ws (fun c hc => h c (List.mem_reverse.1 hc))]
  exact List.reverse_reverse l

theorem trimL_no_ws {l : List Char} (h : ∀ c ∈ l, isWS c = false) :
    trimL l = l := by
  unfold trimL
  rw [dropWhile_no_ws h, trimEndL_no_ws h]

/-- Appending the underscore makes a string fail the all-digits test. -/
theorem isNumericS_append_underscore (s : String) :
    isNumericS (s ++ "_") = false := by
  have hu : isDigitC '_' = false := by decide
  simp [isNumericS, String.data_append, List.all_append,
    show ("_" : String).data = ['_'] from rfl, hu]

/-- The output of `normalizeTag` contains no whitespace. -/
theorem normalizeTag_no_ws (t : InstapaperTag) :
    ∀ c ∈ (normalizeTag t).data, isWS c = false := by
  simp only [normalizeTag]
  split
  · intro c hc
    rw [String.data_append] at hc
    rcases List.mem_append.1 hc with h1 | h2
    · exact replWS_no_ws false _ c h1
    · simp only [show ("_" : String).data = ['_'] from rfl, List.mem_singleton] at h2
      subst h2; decide
  · intro c hc
    exact replWS_no_ws false _ c hc

/-- The output of `normalizeTag` is never entirely numeric. -/
theorem normalizeTag_not_numeric (t : InstapaperTag) :
    isNumericS (normalizeTag t) = false := by
  simp only [normalizeTag]
  split
  · exact isNumericS_append_underscore _
  · rename_i h
    simpa using h

/-! ## Helper lemmas: what the loop body preserves -/

theorem migratePhase_ok {render opts highlight fxh path st st'}
    (h : migratePhase render opts highlight fxh path st = .ok st') :
    st'.cursor = st.cursor ∧ st'.count = st.count ∧
      st'.errors = st.errors ∧ st'.fx = st.fx := by
  simp only [migratePhase] at h
  split at h
  · cases h; exact ⟨rfl, rfl, rfl, rfl⟩
  · split at h
    · cases h
    · split at h
      · split at h
        · cases h
        · cases h; exact ⟨rfl, rfl, rfl, rfl⟩
      · cases h; exact ⟨rfl, rfl, rfl, rfl⟩

theorem appendPhase_ok {render opts template highlight fxh path st st'}
    (h : appendPhase render opts template highlight fxh path st = .ok st') :
    st'.cursor = st.cursor ∧ st'.errors = st.errors ∧ st'.fx = st.fx := by
  simp only [appendPhase] at h
  split at h
  · split at h
    · cases h
    · split at h
      · cases h; exact ⟨rfl, rfl, rfl⟩
      · split at h
        · cases h
        · cases h; exact ⟨rfl, rfl, rfl⟩
  · cases h; exact ⟨rfl, rfl, rfl⟩

theorem processFileSteps_ok {render opts template highlight fxh path st st'}
    (h : processFileSteps render opts template highlight fxh path st = .ok st') :
    st'.cursor = st.cursor ∧ st'.errors = st.errors ∧ st'.fx = st.fx := by
  simp only [processFileSteps] at h
  split at h
  · cases h
  · split at h
    · cases h
    · rename_i st1 hmig
      obtain ⟨h1, _, h2, h3⟩ := migratePhase_ok hmig
      obtain ⟨h4, h5, h6⟩ := appendPhase_ok h
      exact ⟨h4.trans h1, h5.trans h2, h6.trans h3⟩

theorem processHighlight_ok {render opts folder template bms st0 highlight st'}
    (h : processHighlight render opts folder template bms st0 highlight = .ok st') :
    st'.cursor = highlight.highlight_id ∧ st'.errors = st0.errors ∧
      st'.fx = st0.fx.tail := by
  simp only [processHighlight] at h
  split at h
  · cases h; exact ⟨rfl, rfl, rfl⟩
  · split at h
    · cases h; exact ⟨rfl, rfl, rfl⟩
    · cases h; exact ⟨rfl, rfl, rfl⟩
    · obtain ⟨h1, h2, h3⟩ := processFileSteps_ok h
      exact ⟨h1, h2, h3⟩

theorem runHighlights_ok_errors {render opts folder template bms l st st'}
    (h : runHighlights render opts folder template bms st l = .ok st') :
    st'.errors = st.errors := by
  induction l generalizing st with
  | nil =>
    simp only [runHighlights] at h
    cases h
    rfl
  | cons a t ih =>
    simp only [runHighlights] at h
    split at h
    · cases h
    · rename_i st1 hstep
      exact (ih h).trans (processHighlight_ok hstep).2.1

theorem runHighlights_cursor_ge {render opts folder template bms l st st'} {c : Nat}
    (hc : c ≤ st.cursor) (hl : ∀ x ∈ l, c ≤ x.highlight_id)
    (h : runHighlights render opts folder template bms st l = .ok st') :
    c ≤ st'.cursor := by
  induction l generalizing st with
  | nil =>
    simp only [runHighlights] at h
    cases h
    exact hc
  | cons a t ih =>
    simp only [runHighlights] at h
    split at h
    · cases h
    · rename_i st1 hstep
      have h1 : c ≤ st1.cursor := by
        rw [(processHighlight_ok hstep).1]
        exact hl a (by simp)
      exact ih h1 (fun x hx => hl x (by simp [hx])) h

/-! ## Helper lemmas: which failures are absorbed -/

theorem migratePhase_benign (render : String → InstapaperHighlight → String)
    (opts : SyncNotesOptions) (highlight : InstapaperHighlight)
    (fxh : ItemFx) (path : String) (st : SyncState)
    (h2 : fxh.migrateReadThrows = false) (h3 : fxh.modifyThrows = false) :
    ∃ st', migratePhase render opts highlight fxh path st = .ok st' := by
  simp only [migratePhase, h2]
  split
  · exact ⟨_, rfl⟩
  · rw [if_neg (by simp)]
    split
    · rw [h3, if_neg (by simp)]
      exact ⟨_, rfl⟩
    · exact ⟨_, rfl⟩

theorem appendPhase_benign (render : String → InstapaperHighlight → String)
    (opts : SyncNotesOptions) (template : String)
    (highlight : InstapaperHighlight) (fxh : ItemFx) (path : String)
    (st : SyncState)
    (h4 : fxh.appendReadThrows = false) (h5 : fxh.appendThrows = false) :
    ∃ st', appendPhase render opts template highlight fxh path st = .ok st' := by
  simp only [appendPhase, h4, h5]
  split
  · rw [if_neg (by simp)]
    split
    · exact ⟨_, rfl⟩
    · rw [if_neg (by simp)]
      exact ⟨_, rfl⟩
  · exact ⟨_, rfl⟩

theorem processFileSteps_benign {render opts template highlight fxh path st}
    (hb : benignFx fxh = true) :
    ∃ st', processFileSteps render opts template highlight fxh path st = .ok st' := by
  simp only [benignFx, Bool.and_eq_true, Bool.not_eq_true'] at hb
  obtain ⟨⟨⟨⟨h1, h2⟩, h3⟩, h4⟩, h5⟩ := hb
  simp only [processFileSteps, h1, Bool.and_false]
  rw [if_neg (by simp)]
  obtain ⟨st1, hm⟩ := migratePhase_benign render opts highlight fxh path st h2 h3
  rw [hm]
  exact appendPhase_benign render opts template highlight fxh path st1 h4 h5

theorem processHighlight_benign (render : String → InstapaperHighlight → String)
    (opts : SyncNotesOptions) (folder template : String)
    (bms : List (String × InstapaperBookmark)) (st0 : SyncState)
    (highlight : InstapaperHighlight)
    (hb : ∀ f ∈ st0.fx, benignFx f = true) :
    ∃ st', processHighlight render opts folder template bms st0 highlight = .ok st' ∧
      ∀ f ∈ st'.fx, benignFx f = true := by
  have hbt : ∀ f ∈ st0.fx.tail, benignFx f = true :=
    fun f hf => hb f (st0.fx.tail_sublist.subset hf)
  have hbh : benignFx (st0.fx.headD itemFxNone) = true := by
    cases hfx : st0.fx with
    | nil => decide
    | cons a t => exact hb a (by simp [hfx])
  simp only [processHighlight]
  split
  · exact ⟨_, rfl, hbt⟩
  · split
    · exact ⟨_, rfl, hbt⟩
    · exact ⟨_, rfl, hbt⟩
    · obtain ⟨st', hst'⟩ := processFileSteps_benign hbh
      refine ⟨st', hst', ?_⟩
      rw [(processFileSteps_ok hst').2.2]
      exact hbt

theorem runHighlights_benign (render : String → InstapaperHighlight → String)
    (opts : SyncNotesOptions) (folder template : String)
    (bms : List (String × InstapaperBookmark)) (l : List InstapaperHighlight)
    (st : SyncState)
    (hb : ∀ f ∈ st.fx, benignFx f = true) :
    ∃ st', runHighlights render opts folder template bms st l = .ok st' ∧
      ∀ f ∈ st'.fx, benignFx f = true := by
  induction l generalizing st hb with
  | nil => exact ⟨st, rfl, hb⟩
  | cons a t ih =>
    obtain ⟨st1, hst1, hb1⟩ := processHighlight_benign render opts folder template bms st a hb
    obtain ⟨st', hst', hb'⟩ := ih st1 hb1
    refine ⟨st', ?_, hb'⟩
    simp only [runHighlights, hst1]
    exact hst'

/-- With fetch failures and `fileForArticle` failures arbitrary but all
uncaught external calls succeeding, the page loop never throws. -/
theorem syncLoop_no_thrown (render : String → InstapaperHighlight → String)
    (opts : SyncNotesOptions) (folder template : String) :
    ∀ (responses : List (Except Unit Page)) (st : SyncState),
      (∀ f ∈ st.fx, benignFx f = true) →
      syncLoop render opts folder template responses st ≠ .thrown := by
  intro responses
  induction responses with
  | nil =>
    intro st _
    simp [syncLoop]
  | cons r rest ih =>
    intro st hb
    cases r with
    | error e =>
      simp only [syncLoop]
      split
      · simp
      · exact ih _ hb
    | ok page =>
      simp only [syncLoop]
      split
      · simp
      · obtain ⟨st', hst', hb'⟩ := runHighlights_benign render opts folder template
          page.bookmarks page.highlights { st with errors := 0 } hb
        rw [hst']
        exact ih st' hb'

/-- Invariant: if every returned highlight id is at least `c` and the state
cursor is at least `c`, then any normal return of the page loop has a
cursor at least `c`. -/
theorem syncLoop_cursor_ge (render : String → InstapaperHighlight → String)
    (opts : SyncNotesOptions) (folder template : String) (c : Nat) :
    ∀ (responses : List (Except Unit Page)) (st : SyncState),
      c ≤ st.cursor →
      (∀ r ∈ responses, ∀ page, r = .ok page → ∀ x ∈ page.highlights, c ≤ x.highlight_id) →
      ∀ cur cnt v, syncLoop render opts folder template responses st = .ok cur cnt v →
        c ≤ cur := by
  intro responses
  induction responses with
  | nil =>
    intro st _ _ cur cnt v h
    cases h
  | cons r rest ih =>
    intro st hc hresp cur cnt v h
    have hrest : ∀ r2 ∈ rest, ∀ page, r2 = .ok page →
        ∀ x ∈ page.highlights, c ≤ x.highlight_id :=
      fun r2 hr2 => hresp r2 (by simp [hr2])
    cases r with
    | error e =>
      simp only [syncLoop] at h
      split at h
      · cases h
        exact hc
      · exact ih { st with errors := st.errors + 1 } hc hrest cur cnt v h
    | ok page =>
      simp only [syncLoop] at h
      split at h
      · cases h
        exact hc
      · rcases hrun : runHighlights render opts folder template page.bookmarks
            { st with errors := 0 } page.highlights with e1 | st'
        · rw [hrun] at h
          cases h
        · rw [hrun] at h
          have hpage : ∀ x ∈ page.highlights, c ≤ x.highlight_id :=
            hresp (Except.ok page) (by simp) page rfl
          have hcur0 : c ≤ ({ st with errors := 0 } : SyncState).cursor := hc
          have hcur' : c ≤ st'.cursor := runHighlights_cursor_ge hcur0 hpage hrun
          exact ih st' hcur' hrest cur cnt v h

/-! ## Helper lemmas: the legacy renderer -/

theorem data_trimEndS (s : String) : (trimEndS s).data = trimEndL s.data := rfl

/-- `trimEnd` removes exactly an all-whitespace suffix when the text before
it ends in a non-whitespace character. -/
theorem trimEndS_ws_suffix {B w : String} (hw : ∀ a ∈ w.data, isWS a = true)
    (hB : ∃ m d, B.data = m ++ [d] ∧ isWS d = false) :
    trimEndS (B ++ w) = B := by
  obtain ⟨m, d, hmd, hdw⟩ := hB
  apply String.ext
  rw [data_trimEndS, String.data_append, hmd, List.append_assoc,
    List.singleton_append]
  exact trimEndL_append_ws hdw hw

/-- The legacy renderer agrees with the first pre-template renderer (the one
sharing its `"â†—"` glyph) whenever the note is empty or does not end in
whitespace. -/
theorem legacy_eq_v1 (highlight : InstapaperHighlight)
    (hnote : highlight.note = "" ∨
      ∃ l c, highlight.note.data = l ++ [c] ∧ isWS c = false) :
    legacyContentForHighlight highlight = contentForHighlightV1 highlight := by
  have hws : ∀ a ∈ ("\n\n" : String).data, isWS a = true := by decide
  rcases hnote with hempty | ⟨l, c, hlc, hcw⟩
  · simp only [legacyContentForHighlight, contentForHighlightV1, hempty, ne_eq,
      not_true_eq_false, if_false]
    rw [trimEndS_ws_suffix hws ⟨(quoteLines highlight.text ++ " [â†—](" ++
      linkForHighlight highlight).data, ')', by
        rw [String.data_append], by decide⟩]
  · have hne : highlight.note ≠ "" := by
      intro h
      rw [h] at hlc
      exact absurd hlc.symm (by simp)
    simp only [legacyContentForHighlight, contentForHighlightV1, ne_eq, hne,
      not_false_eq_true, if_true]
    rw [trimEndS_ws_suffix hws ⟨((quoteLines highlight.text ++ " [â†—](" ++
      linkForHighlight highlight ++ ")" ++ "\n\n").data ++ l), c, by
        rw [String.data_append, hlc, List.append_assoc], hcw⟩]

/-! ## Claim theorems -/

/-- Claim C2: for every highlight, Mustache renderer, and template string,
`contentForHighlight` contains the highlight's block-identifier literal or
its link literal; consequently every file text containing the rendering as
a substring satisfies `hasHighlightMarker`, regardless of the template. -/
theorem claimC2_anchor_and_dedup (render : String → InstapaperHighlight → String)
    (highlight : InstapaperHighlight) (template : String) :
    ((linkForHighlight highlight).data <:+:
        (contentForHighlight render highlight template).data ∨
      (blockIdentifierForHighlight highlight).data <:+:
        (contentForHighlight render highlight template).data) ∧
    ∀ fileText : String,
      (contentForHighlight render highlight template).data <:+: fileText.data →
      hasHighlightMarker fileText highlight = true := by
  refine ⟨anchor_in_content render highlight template, ?_⟩
  intro fileText hsub
  unfold hasHighlightMarker
  rw [Bool.or_eq_true]
  rcases anchor_in_content render highlight template with h | h
  · exact Or.inr (containsB_iff.2 (h.trans hsub))
  · exact Or.inl (containsB_iff.2 (h.trans hsub))

/-- Witness for C2 at a concrete highlight, template, and file text. -/
theorem claimC2_witness :
    hasHighlightMarker "pre x ^h2\n\npost" ⟨2, "1", "t", ""⟩ = true :=
  (claimC2_anchor_and_dedup renderConst ⟨2, "1", "t", ""⟩ "x").2
    "pre x ^h2\n\npost" (by decide)

/-- Claim C5 (counterexample): `fileContent.replace(oldFormat, newFormat)`
applies `$`-substitution to the replacement, so a new rendering containing
`$` patterns is not inserted verbatim: with the `to` template `"$$x"` the
new rendering is `"$$x ^h2"`, but the migrated file holds `"$x ^h2"`. -/
theorem claimC5_counterexample :
    migrateStep renderConst ⟨some "f", "$$x"⟩ ⟨2, "1", "t", ""⟩ "u f ^h2 v" =
      "u $x ^h2 v" ∧
    newFormatFor renderConst ⟨some "f", "$$x"⟩ ⟨2, "1", "t", ""⟩ = "$$x ^h2" ∧
    splitFirst (oldFormatFor renderConst ⟨some "f", "$$x"⟩ ⟨2, "1", "t", ""⟩).data
        ("u f ^h2 v" : String).data = some ("u ".data, " v".data) ∧
    ("u $x ^h2 v" : String).data ≠
      ("u " : String).data ++
        (newFormatFor renderConst ⟨some "f", "$$x"⟩ ⟨2, "1", "t", ""⟩).data ++
        (" v" : String).data := by
  refine ⟨by decide, by decide, by decide, by decide⟩

/-- Claim C5 (amended): the template-migration step replaces exactly the
first occurrence of the old rendering (previous template, or legacy format
when absent, right-trimmed) with the `$`-substituted new rendering
(right-trimmed) and keeps all other text; the insertion is the new
rendering itself whenever it contains no `$`; when the old rendering does
not occur verbatim, the content is unchanged. -/
theorem claimC5_migration (render : String → InstapaperHighlight → String)
    (ft : FromTo) (highlight : InstapaperHighlight) (fileContent : String) :
    (¬ (oldFormatFor render ft highlight).data <:+: fileContent.data →
      migrateStep render ft highlight fileContent = fileContent) ∧
    ((oldFormatFor render ft highlight).data <:+: fileContent.data →
      ∃ a b, fileContent.data = a ++ (oldFormatFor render ft highlight).data ++ b ∧
        (migrateStep render ft highlight fileContent).data =
          a ++ getSubst (oldFormatFor render ft highlight).data a b
            (newFormatFor render ft highlight).data ++ b ∧
        ((∀ c ∈ (newFormatFor render ft highlight).data, c ≠ '$') →
          (migrateStep render ft highlight fileContent).data =
            a ++ (newFormatFor render ft highlight).data ++ b) ∧
        ∀ a2 b2,
          fileContent.data = a2 ++ (oldFormatFor render ft highlight).data ++ b2 →
          a.length ≤ a2.length) := by
  constructor
  · intro h
    rw [migrateStep, if_neg (fun hc => h (containsB_iff.1 hc))]
  · intro h
    rw [migrateStep, if_pos (containsB_iff.2 h)]
    exact replaceFirst_spec h

/-- Witness for the amended C5 at a concrete file: `"u f ^h2 v"` contains
the old rendering `"f ^h2"` (template `"f"` under the identity renderer),
which is replaced verbatim by the `$`-free new rendering `"g ^h2"`. -/
theorem claimC5_witness :
    ∃ a b, ("u f ^h2 v" : String).data =
        a ++ (oldFormatFor renderConst ⟨some "f", "g"⟩ ⟨2, "1", "t", ""⟩).data ++ b ∧
      (migrateStep renderConst ⟨some "f", "g"⟩ ⟨2, "1", "t", ""⟩ "u f ^h2 v").data =
        a ++ (newFormatFor renderConst ⟨some "f", "g"⟩ ⟨2, "1", "t", ""⟩).data ++ b ∧
      ∀ a2 b2, ("u f ^h2 v" : String).data =
          a2 ++ (oldFormatFor renderConst ⟨some "f", "g"⟩ ⟨2, "1", "t", ""⟩).data ++ b2 →
        a.length ≤ a2.length := by
  obtain ⟨a, b, h1, _, h3, h4⟩ :=
    (claimC5_migration renderConst ⟨some "f", "g"⟩ ⟨2, "1", "t", ""⟩ "u f ^h2 v").2
      (by decide)
  exact ⟨a, b, h1, h3 (by decide), h4⟩

/-- Claim C8 (counterexample): `normalizeTag` first trims the tag name, so
for the name `" a"` it returns `"a"`, while the claimed transformation
(replace every whitespace run by a hyphen, no trimming) yields `"-a"`. -/
theorem claimC8_counterexample :
    normalizeTag ⟨" a"⟩ ≠ normalizeTagSpec " a" ∧
    normalizeTag ⟨" a"⟩ = "a" ∧ normalizeTagSpec " a" = "-a" := by
  refine ⟨by decide, by decide, by decide⟩

/-- Claim C8 (amended): `normalizeTag` equals the claimed transformation
applied to the **trimmed** tag name, and the stated examples hold:
`"one two" ↦ "one-two"`, `"123" ↦ "123_"`, `"already-valid"` unchanged. -/
theorem claimC8_normalize (t : InstapaperTag) :
    normalizeTag t = normalizeTagSpec (trimS t.name) ∧
    normalizeTag ⟨"one two"⟩ = "one-two" ∧
    normalizeTag ⟨"123"⟩ = "123_" ∧
    normalizeTag ⟨"already-valid"⟩ = "already-valid" :=
  ⟨rfl, by decide, by decide, by decide⟩

/-- Claim C9 (counterexample): `legacyContentForHighlight` is not
byte-for-byte equal to the renderer of src/notes.ts lines 235–244: the
legacy glyph is the byte sequence `"â†—"`, that renderer's is `"↗"`. -/
theorem claimC9_counterexample :
    legacyContentForHighlight ⟨2, "1", "t", ""⟩ ≠
      contentForHighlightV2 ⟨2, "1", "t", ""⟩ := by
  decide

/-- Claim C9 (amended): `legacyContentForHighlight` reproduces byte-for-byte
the **first** pre-template renderer (src/notes.ts lines 117–126, which uses
the same `"â†—"` byte sequence) whenever the note is empty or does not end
in whitespace (the legacy renderer right-trims before the final blank
line). -/
theorem claimC9_legacy_reproduces_v1 (highlight : InstapaperHighlight)
    (hnote : highlight.note = "" ∨
      ∃ l c, highlight.note.data = l ++ [c] ∧ isWS c = false) :
    legacyContentForHighlight highlight = contentForHighlightV1 highlight :=
  legacy_eq_v1 highlight hnote

/-- Witness for the amended C9 at a concrete highlight with a note. -/
theorem claimC9_witness :
    legacyContentForHighlight ⟨2, "1", "t", "n"⟩ =
      contentForHighlightV1 ⟨2, "1", "t", "n"⟩ :=
  claimC9_legacy_reproduces_v1 ⟨2, "1", "t", "n"⟩
    (Or.inr ⟨[], 'n', rfl, by decide⟩)

/-- Claim C10: `normalizeTag` is idempotent — applied to a tag whose name
is an output of `normalizeTag`, it returns that name unchanged (the output
contains no whitespace and is never entirely numeric). -/
theorem claimC10_idempotent (t : InstapaperTag) :
    normalizeTag ⟨normalizeTag t⟩ = normalizeTag t := by
  have hnw := normalizeTag_no_ws t
  have hnn := normalizeTag_not_numeric t
  set x := normalizeTag t with hx
  have htrim : trimS x = x := by
    apply String.ext
    exact trimL_no_ws hnw
  have hrepl : replaceWSRuns x = x := by
    apply String.ext
    exact replWS_id hnw false
  show normalizeTag ⟨x⟩ = x
  simp only [normalizeTag]
  rw [htrim, hrepl, if_neg (by simp [hnn])]

/-- Claim C1 (counterexample): when the notes folder is missing and is
created, the cursor is re-baselined to 0, so a terminating run (first page
empty) started with cursor 500 returns cursor 0 < 500. -/
theorem claimC1_counterexample :
    cursorOf (syncNotes renderConst defaultOptions "Instapaper" "tpl"
      ⟨false, [Except.ok ⟨[], []⟩], [], []⟩ 500) = some 0 ∧ ¬ (500 ≤ 0) := by
  refine ⟨by decide, by decide⟩

/-- Claim C1 (amended): when the notes folder exists at start (so the
cursor is not re-baselined) and every highlight of every fetched page has
id at least the input cursor (the ascending-after remote contract), every
normally terminating run returns a cursor that is at least the input
cursor. -/
theorem claimC1_cursor_monotone (render : String → InstapaperHighlight → String)
    (opts : SyncNotesOptions) (folder template : String) (env : SyncEnv)
    (c cur cnt : Nat) (v : VaultFS)
    (hfolder : env.folderExists = true)
    (hresp : ∀ r ∈ env.responses, ∀ page, r = Except.ok page →
      ∀ x ∈ page.highlights, c ≤ x.highlight_id)
    (hrun : syncNotes render opts folder template env c = .ok cur cnt v) :
    c ≤ cur := by
  rw [syncNotes, if_pos (by simp [hfolder])] at hrun
  exact syncLoop_cursor_ge render opts folder template c env.responses
    ⟨c, 0, 0, env.vault, env.fx⟩ (Nat.le_refl c) hresp cur cnt v hrun

/-- Witness for the amended C1 at a concrete run (folder present, one empty
page, cursor 5). -/
theorem claimC1_witness : (5 : Nat) ≤ 5 :=
  claimC1_cursor_monotone renderConst defaultOptions "F" "tpl"
    ⟨true, [Except.ok ⟨[], []⟩], [], []⟩ 5 5 0 [] rfl
    (by
      intro r hr page hpg x hx
      rw [List.mem_singleton] at hr
      subst hr
      cases hpg
      simp at hx)
    (by decide)

/-- Claim C3: in the page loop, a fetch failure below the threshold
increments the consecutive-error counter and retries with the same cursor,
count, and vault; a fetch failure at the threshold stops and returns the
accumulated cursor and count; a fetch success resets the counter to zero
before processing; and with the default threshold 3, a successful page
followed by three consecutive failures returns exactly the state
accumulated from that page. -/
theorem claimC3_error_handling (render : String → InstapaperHighlight → String)
    (opts : SyncNotesOptions) (folder template : String) :
    (∀ (rest : List (Except Unit Page)) (st : SyncState),
      st.errors + 1 < opts.maxErrors →
      syncLoop render opts folder template (Except.error () :: rest) st =
        syncLoop render opts folder template rest { st with errors := st.errors + 1 }) ∧
    (∀ (rest : List (Except Unit Page)) (st : SyncState),
      opts.maxErrors ≤ st.errors + 1 →
      syncLoop render opts folder template (Except.error () :: rest) st =
        .ok st.cursor st.count st.vault) ∧
    (∀ (rest : List (Except Unit Page)) (st st' : SyncState) (page : Page),
      page.highlights ≠ [] →
      runHighlights render opts folder template page.bookmarks
        { st with errors := 0 } page.highlights = .ok st' →
      syncLoop render opts folder template (Except.ok page :: rest) st =
        syncLoop render opts folder template rest st' ∧ st'.errors = 0) ∧
    (∀ (rest : List (Except Unit Page)) (st st' : SyncState) (page : Page),
      opts.maxErrors = 3 →
      page.highlights ≠ [] →
      runHighlights render opts folder template page.bookmarks
        { st with errors := 0 } page.highlights = .ok st' →
      syncLoop render opts folder template
        (Except.ok page :: Except.error () :: Except.error () :: Except.error () :: rest)
        st = .ok st'.cursor st'.count st'.vault) := by
  have herr0 : ∀ (l : List InstapaperHighlight) (bms st st'),
      runHighlights render opts folder template bms st l = .ok st' →
      st'.errors = st.errors := fun _ _ _ _ h => runHighlights_ok_errors h
  refine ⟨?_, ?_, ?_, ?_⟩
  · intro rest st hlt
    simp only [syncLoop]
    rw [if_neg (by omega)]
  · intro rest st hge
    simp only [syncLoop]
    rw [if_pos (by omega)]
  · intro rest st st' page hne hrun
    have he0 : st'.errors = 0 := herr0 _ _ _ _ hrun
    constructor
    · simp only [syncLoop]
      rw [if_neg (by simpa [List.isEmpty_iff] using hne), hrun]
    · exact he0
  · intro rest st st' page hmax hne hrun
    have he0 : st'.errors = 0 := herr0 _ _ _ _ hrun
    simp only [syncLoop]
    rw [if_neg (by simpa [List.isEmpty_iff] using hne), hrun]
    show syncLoop render opts folder template
      (Except.error () :: Except.error () :: Except.error () :: rest) st' =
        .ok st'.cursor st'.count st'.vault
    simp only [syncLoop]
    rw [if_neg (by omega), if_neg (by omega), if_pos (by omega)]

/-- Witness for C3: all four parts at concrete states and pages (the page
holds one orphan highlight with id 7; the state starts at cursor 5, count
2, one prior error). -/
theorem claimC3_witness :
    (syncLoop renderConst defaultOptions "F" "tp" [Except.error ()]
        ⟨5, 2, 1, [], []⟩ =
      syncLoop renderConst defaultOptions "F" "tp" [] ⟨5, 2, 2, [], []⟩) ∧
    (syncLoop renderConst defaultOptions "F" "tp" [Except.error ()]
        ⟨5, 2, 2, [], []⟩ = RunResult.ok 5 2 []) ∧
    (syncLoop renderConst defaultOptions "F" "tp"
        [Except.ok ⟨[⟨7, "a", "t", ""⟩], []⟩] ⟨5, 2, 1, [], []⟩ =
      syncLoop renderConst defaultOptions "F" "tp" [] ⟨7, 2, 0, [], []⟩) ∧
    (syncLoop renderConst defaultOptions "F" "tp"
        [Except.ok ⟨[⟨7, "a", "t", ""⟩], []⟩,
          Except.error (), Except.error (), Except.error ()]
        ⟨5, 2, 1, [], []⟩ = RunResult.ok 7 2 []) := by
  obtain ⟨h1, h2, h3, h4⟩ :=
    claimC3_error_handling renderConst defaultOptions "F" "tp"
  exact ⟨h1 [] ⟨5, 2, 1, [], []⟩ (by decide),
    h2 [] ⟨5, 2, 2, [], []⟩ (by decide),
    (h3 [] ⟨5, 2, 1, [], []⟩ ⟨7, 2, 0, [], []⟩ ⟨[⟨7, "a", "t", ""⟩], []⟩
      (by decide) (by decide)).1,
    h4 [] ⟨5, 2, 1, [], []⟩ ⟨7, 2, 0, [], []⟩ ⟨[⟨7, "a", "t", ""⟩], []⟩
      rfl (by decide) (by decide)⟩

/-- Claim C4: when the notes folder is missing at start, `syncNotes` with
`createFiles` disabled returns the unchanged input cursor and count 0
without fetching; with `createFiles` enabled it runs the page loop with the
cursor forced to 0, so its result is independent of the stored cursor. -/
theorem claimC4_folder_missing (render : String → InstapaperHighlight → String)
    (opts : SyncNotesOptions) (folder template : String) (env : SyncEnv)
    (hf : env.folderExists = false) :
    (opts.createFiles = false → ∀ c,
      syncNotes render opts folder template env c = .ok c 0 env.vault) ∧
    (opts.createFiles = true → ∀ c,
      syncNotes render opts folder template env c =
        syncLoop render opts folder template env.responses
          ⟨0, 0, 0, env.vault, env.fx⟩ ∧
      ∀ c2, syncNotes render opts folder template env c =
        syncNotes render opts folder template env c2) := by
  constructor
  · intro hcf c
    rw [syncNotes, if_neg (by simp [hf]), if_pos (by simp [hcf])]
  · intro hcf c
    have h1 : ∀ c3 : Nat, syncNotes render opts folder template env c3 =
        syncLoop render opts folder template env.responses
          ⟨0, 0, 0, env.vault, env.fx⟩ := by
      intro c3
      rw [syncNotes, if_neg (by simp [hf]), if_neg (by simp [hcf])]
    exact ⟨h1 c, fun c2 => (h1 c).trans (h1 c2).symm⟩

/-- Witness for C4: a missing folder with stored cursor 500; with
`createFiles` disabled the run returns `{cursor 500, count 0}`; with the
defaults it equals the run started from cursor 0. -/
theorem claimC4_witness :
    (syncNotes renderConst
        ⟨false, true, false, true, none, 3⟩ "F" "tp"
        ⟨false, [Except.ok ⟨[], []⟩], [], []⟩ 500 = RunResult.ok 500 0 []) ∧
    (syncNotes renderConst defaultOptions "F" "tp"
        ⟨false, [Except.ok ⟨[], []⟩], [], []⟩ 500 =
      syncNotes renderConst defaultOptions "F" "tp"
        ⟨false, [Except.ok ⟨[], []⟩], [], []⟩ 0) := by
  constructor
  · exact (claimC4_folder_missing renderConst ⟨false, true, false, true, none, 3⟩
      "F" "tp" ⟨false, [Except.ok ⟨[], []⟩], [], []⟩ rfl).1 rfl 500
  · exact ((claimC4_folder_missing renderConst defaultOptions
      "F" "tp" ⟨false, [Except.ok ⟨[], []⟩], [], []⟩ rfl).2 rfl 500).2 0

/-- Claim C6 (counterexample): a failing `vault.read` during the append
step is not caught by `syncNotes`: the run throws instead of returning a
best-effort `{cursor, count}`. -/
theorem claimC6_counterexample :
    syncNotes renderConst defaultOptions "F" "tpl"
      ⟨true, [Except.ok ⟨[⟨7, "a1", "hello", ""⟩], [("a1", ⟨11, "Title"⟩)]⟩], [],
        [⟨false, false, false, false, true, false⟩]⟩ 0 = RunResult.thrown := by
  decide

/-- Claim C6 (amended): remote fetch failures and per-item
`fileForArticle` failures never escape `syncNotes` (they are retried,
stopped at the threshold, or skipped); provided the frontmatter update and
the file read/append/modify calls do not fail, no run throws — but
failures of those uncaught operations do propagate (see the
counterexample). -/
theorem claimC6_no_throw (render : String → InstapaperHighlight → String)
    (opts : SyncNotesOptions) (folder template : String) (env : SyncEnv)
    (c : Nat) (hb : ∀ f ∈ env.fx, benignFx f = true) :
    syncNotes render opts folder template env c ≠ .thrown := by
  rw [syncNotes]
  split
  · exact syncLoop_no_thrown render opts folder template env.responses _ hb
  · split
    · simp
    · exact syncLoop_no_thrown render opts folder template env.responses _ hb

/-- Witness for the amended C6: a run with a fetch failure and a rejecting
`vault.create` (both absorbed) does not throw. -/
theorem claimC6_witness :
    syncNotes renderConst defaultOptions "F" "tpl"
      ⟨true, [Except.error (), Except.ok ⟨[⟨7, "a1", "hello", ""⟩],
        [("a1", ⟨11, "Title"⟩)]⟩], [],
        [⟨true, false, false, false, false, false⟩]⟩ 0 ≠ RunResult.thrown :=
  claimC6_no_throw renderConst defaultOptions "F" "tpl"
    ⟨true, [Except.error (), Except.ok ⟨[⟨7, "a1", "hello", ""⟩],
      [("a1", ⟨11, "Title"⟩)]⟩], [],
      [⟨true, false, false, false, false, false⟩]⟩ 0 (by decide)

theorem isHostile_eq_false_of_isDigitC {c : Char} (h : isDigitC c = true) :
    isHostile c = false := by
  simp only [isHostile, Bool.or_eq_false_iff, decide_eq_false_iff_not]
  refine ⟨⟨⟨⟨⟨⟨⟨⟨?_, ?_⟩, ?_⟩, ?_⟩, ?_⟩, ?_⟩, ?_⟩, ?_⟩, ?_⟩ <;>
    · intro he
      subst he
      exact absurd h (by decide)

theorem mem_trimL {l : List Char} {c : Char} (h : c ∈ trimL l) : c ∈ l := by
  unfold trimL trimEndL at h
  have h1 := List.mem_reverse.1 h
  have h2 := (List.dropWhile_sublist isWS).subset h1
  have h3 := List.mem_reverse.1 h2
  exact (List.dropWhile_sublist isWS).subset h3

theorem trimL_length_le (l : List Char) : (trimL l).length ≤ l.length := by
  unfold trimL trimEndL
  rw [List.length_reverse]
  refine le_trans (List.dropWhile_sublist isWS).length_le ?_
  rw [List.length_reverse]
  exact (List.dropWhile_sublist isWS).length_le

set_option maxRecDepth 8192 in
/-- Claim C7 (counterexample): the source truncates to 250 characters and
then trims, while the claim lists trimming before truncation; for a title
of 249 `'a'`s followed by `" b"` the two orders differ (`'b'` protects the
space from the claimed trim, but the source's truncation cuts `'b'` off
first and then trims the space). -/
theorem claimC7_counterexample :
    sanitizedName ⟨9, ⟨List.replicate 249 'a' ++ [' ', 'b']⟩⟩ ≠
      sanitizedNameSpec ⟨9, ⟨List.replicate 249 'a' ++ [' ', 'b']⟩⟩ ∧
    sanitizedName ⟨9, ⟨List.replicate 249 'a' ++ [' ', 'b']⟩⟩ =
      ⟨List.replicate 249 'a'⟩ ∧
    sanitizedNameSpec ⟨9, ⟨List.replicate 249 'a' ++ [' ', 'b']⟩⟩ =
      ⟨List.replicate 249 'a' ++ [' ']⟩ := by
  refine ⟨by decide, by decide, by decide⟩

/-- Claim C7 (amended): `fileForArticle` derives the filename by stripping
the path-hostile characters, truncating to 250 characters, and **then**
trimming; the result never contains a hostile character, is at most 250
characters long unless it is the `Untitled-{id}` fallback, falls back to
`Untitled-{id}` exactly when the sanitized name is empty, and the stated
examples hold. -/
theorem claimC7_sanitization (article : InstapaperBookmark) :
    (∀ ch ∈ (sanitizedName article).data, isHostile ch = false) ∧
    ((sanitizedName article).data.length ≤ 250 ∨
      sanitizedName article = "Untitled-" ++ natStr article.bookmark_id) ∧
    (trimS ⟨(article.title.data.filter (fun c => !isHostile c)).take 250⟩ = "" →
      sanitizedName article = "Untitled-" ++ natStr article.bookmark_id) ∧
    sanitizedName ⟨1, "A/B:C?"⟩ = "ABC" ∧
    sanitizedName ⟨42, ""⟩ = "Untitled-42" := by
  refine ⟨?_, ?_, ?_, by decide, by decide⟩
  · intro ch hch
    simp only [sanitizedName] at hch
    split at hch
    · rw [String.data_append] at hch
      rcases List.mem_append.1 hch with h1 | h2
      · exact (by decide : ∀ c ∈ ("Untitled-" : String).data, isHostile c = false) ch h1
      · exact isHostile_eq_false_of_isDigitC (natStr_digits _ ch h2)
    · have h1 : ch ∈ (article.title.data.filter (fun c => !isHostile c)).take 250 :=
        mem_trimL hch
      have h2 := List.mem_of_mem_take h1
      have h3 := (List.mem_filter.1 h2).2
      simpa using h3
  · simp only [sanitizedName]
    split
    · exact Or.inr rfl
    · refine Or.inl (le_trans (trimL_length_le _) ?_)
      exact List.length_take_le 250 _
  · intro h
    simp only [sanitizedName]
    rw [if_pos h]

/-- Witness for the amended C7 at the article titled `"A/B:C?"`. -/
theorem claimC7_witness :
    sanitizedName ⟨1, "A/B:C?"⟩ = "ABC" ∧ sanitizedName ⟨42, ""⟩ = "Untitled-42" :=
  ⟨(claimC7_sanitization ⟨1, "A/B:C?"⟩).2.2.2.1,
    (claimC7_sanitization ⟨1, "A/B:C?"⟩).2.2.2.2⟩
